import Mathlib

/-!
Verification development for the Personal-AI-Employee repository.

This file gives a shallow embedding, in Lean 4, of the parts of the
repository that the verified properties talk about:

* `Skills/social_orchestrator.py` — the spec-file front matter reader
  (`parse_spec`), the retrying executor (`execute_post`), the file
  pipeline (`process_file`), and the watchdog handler
  (`ApprovedHandler.on_created`);
* `Watchers/gmail_watcher.py` together with `Watchers/base_watcher.py`
  — the poll cycle (`check_for_updates`, `create_action_file`) and the
  persisted processed-ids ledger;
* `Ralph/ralph_loop.py` — the completion check (`check_completion`) and
  the bounded iteration loop (`ralph_loop`);
* `mcp_servers/email_server.py` — the approval-gated `send_email` and
  `draft_email` tools.

External effects (browser automation, the Gmail API, the subprocess
invoking the CLI actor, the file system) are modelled as explicit
oracle parameters or explicit state records; machine behaviour of the
Python code is otherwise translated line by line.  Strings are modelled
as `String` where the content is opaque, and as `List Char` where the
properties depend on character-level processing (the front-matter
round trip).
-/

set_option maxRecDepth 8192

/-- Character lists, used where properties depend on individual characters. -/
abbrev Str := List Char

/-- Data of a string literal as a character list. -/
def strOf (s : String) : Str := s.data

/-! ## Executor core (`Skills/social_orchestrator.py`)

`MAX_RETRIES` and `RETRY_WAIT` are the module constants of
`social_orchestrator.py` (lines 51-52). -/

/-- Module constant `MAX_RETRIES = 3` of `social_orchestrator.py`. -/
def MAX_RETRIES : Nat := 3

/-- Module constant `RETRY_WAIT = 5` (seconds between retries). -/
def RETRY_WAIT : Nat := 5

/-- Observable trace of one `execute_post` call: the returned boolean,
the number of handler invocations made, and the list of sleep
durations performed between attempts. -/
structure ExecTrace where
  success : Bool
  attempts : Nat
  sleeps : List Nat
  deriving DecidableEq, Repr

/-- The `for attempt in range(1, MAX_RETRIES + 1)` loop body of
`execute_post` (lines 631-663).  `handler a = true` means the platform
handler returned normally on attempt `a`; `handler a = false` means it
raised (any exception: the source catches bare `Exception`).  On an
exception the source sleeps `RETRY_WAIT` seconds when
`attempt < MAX_RETRIES` and continues with the next attempt. -/
def attemptList (handler : Nat → Bool) (maxR : Nat) :
    List Nat → Nat → List Nat → ExecTrace
  | [], made, sleeps => ⟨false, made, sleeps⟩
  | a :: rest, made, sleeps =>
      if handler a then ⟨true, made + 1, sleeps⟩
      else if a < maxR then
        attemptList handler maxR rest (made + 1) (sleeps ++ [RETRY_WAIT])
      else attemptList handler maxR rest (made + 1) sleeps

/-- `execute_post` of `social_orchestrator.py` (lines 610-666).
If the platform session directory is missing it logs and returns
`False` without any attempt; in dry-run mode it logs and returns
`True` without any attempt; otherwise it runs the bounded retry loop
over attempts `1 .. MAX_RETRIES` and returns `False` after the last
failed attempt. -/
def execute_post (sessionExists dryRun : Bool) (handler : Nat → Bool) : ExecTrace :=
  if sessionExists = false then ⟨false, 0, []⟩
  else if dryRun = true then ⟨true, 0, []⟩
  else attemptList handler MAX_RETRIES (List.range' 1 MAX_RETRIES) 0 []

/-- One attempt of `post_twitter` (lines 482-596): the handler raises a
`RuntimeError` before touching the browser whenever the caption exceeds
280 characters (lines 490-494); otherwise the outcome of the browser
interaction is an environment oracle indexed by the attempt number. -/
def post_twitter_attempt (caption : Str) (browser : Nat → Bool) (attempt : Nat) : Bool :=
  if 280 < caption.length then false else browser attempt

theorem execute_post_live (handler : Nat → Bool) :
    execute_post true false handler =
      attemptList handler MAX_RETRIES (List.range' 1 MAX_RETRIES) 0 [] := rfl

theorem attemptList_all_fail (handler : Nat → Bool)
    (h : ∀ a, handler a = false) :
    attemptList handler MAX_RETRIES (List.range' 1 MAX_RETRIES) 0 [] =
      ⟨false, MAX_RETRIES, [RETRY_WAIT, RETRY_WAIT]⟩ := by
  simp [MAX_RETRIES, List.range', attemptList, h]

/-- C2: a handler that raises on every attempt gets exactly
`MAX_RETRIES = 3` attempts — never 4, never fewer — with a
`RETRY_WAIT`-second sleep between consecutive attempts, and the
call returns a failed outcome.  `execute_post` keeps no state across
calls (it is a plain function of its arguments in the source as well:
no module-level mutable flag is touched), so re-invoking it on the
same task runs a fresh loop of `MAX_RETRIES` attempts; the second
conjunct states this as invariance under repetition. -/
theorem execute_post_retry_budget (handler : Nat → Bool)
    (h : ∀ a, handler a = false) :
    execute_post true false handler =
        ⟨false, MAX_RETRIES, [RETRY_WAIT, RETRY_WAIT]⟩ ∧
      MAX_RETRIES = 3 ∧
      (∀ n : Nat,
        (fun _ => execute_post true false handler) n =
          ⟨false, MAX_RETRIES, [RETRY_WAIT, RETRY_WAIT]⟩) := by
  refine ⟨?_, rfl, fun n => ?_⟩ <;>
    rw [execute_post_live, attemptList_all_fail handler h]

theorem execute_post_retry_budget_witness :
    execute_post true false (fun _ => false) =
      ⟨false, MAX_RETRIES, [RETRY_WAIT, RETRY_WAIT]⟩ :=
  (execute_post_retry_budget (fun _ => false) (fun _ => rfl)).1

/-- C3 counterexample: a Twitter caption of 281 characters raises a
validation `RuntimeError` on the first attempt, yet `execute_post`
makes 3 attempts, not 1 — the bare `except Exception` of the retry
loop does not distinguish validation errors, even with a browser
oracle that would succeed on every attempt. -/
theorem execute_post_validation_counterexample :
    (execute_post true false
        (post_twitter_attempt (List.replicate 281 'a') (fun _ => true))).attempts = 3 ∧
      (execute_post true false
        (post_twitter_attempt (List.replicate 281 'a') (fun _ => true))).attempts ≠ 1 := by
  have hh : ∀ a, post_twitter_attempt (List.replicate 281 'a') (fun _ => true) a = false := by
    intro a
    unfold post_twitter_attempt
    rw [List.length_replicate, if_pos (by norm_num)]
  rw [execute_post_live, attemptList_all_fail _ hh]
  exact ⟨rfl, by decide⟩

/-- C3 (amended): `execute_post` does not short-circuit non-retriable
validation errors.  For every Twitter caption longer than 280
characters the handler raises on every attempt and `execute_post`
makes the full `MAX_RETRIES = 3` attempts (with the usual sleeps)
before returning a failed outcome. -/
theorem execute_post_validation_retries (caption : Str) (browser : Nat → Bool)
    (h : 280 < caption.length) :
    execute_post true false (post_twitter_attempt caption browser) =
      ⟨false, MAX_RETRIES, [RETRY_WAIT, RETRY_WAIT]⟩ := by
  have hh : ∀ a, post_twitter_attempt caption browser a = false := by
    intro a; unfold post_twitter_attempt; rw [if_pos h]
  rw [execute_post_live, attemptList_all_fail _ hh]

theorem execute_post_validation_retries_witness :
    execute_post true false
        (post_twitter_attempt (List.replicate 281 'a') (fun _ => true)) =
      ⟨false, MAX_RETRIES, [RETRY_WAIT, RETRY_WAIT]⟩ :=
  execute_post_validation_retries (List.replicate 281 'a') (fun _ => true)
    (by rw [List.length_replicate]; norm_num)

/-! ## Gmail watcher (`Watchers/gmail_watcher.py` + `Watchers/base_watcher.py`)

The watcher keeps an in-memory set `processed_ids` loaded at startup
from `.gmail_processed.json` and rewritten wholesale by
`_save_processed` after each new email is turned into a task file.
The model tracks both copies, the set of task-file names present in
`Needs_Action/`, and a ghost log of file-creation events. -/

/-- One Gmail message as seen by the poll loop.  `fetchOk = false`
models `create_action_file` raising before the task-file write
completes (for example the `messages().get` fetch failing); the
`BaseWatcher.run` loop catches the exception and moves on. -/
structure GmailEvent where
  id : String
  fetchOk : Bool
  deriving DecidableEq, Repr

/-- State of one `GmailWatcher` plus the persisted ledger file. -/
structure WatcherState where
  memLedger : List String
  diskLedger : List String
  files : List String
  creations : List String
  deriving DecidableEq, Repr

/-- Filesystem-visible events emitted by `create_action_file`, in
program order. -/
inductive WEvent where
  | writeFile (id : String)
  | markSeen (id : String)
  | persistLedger
  deriving DecidableEq, Repr

/-- Task filename built at `gmail_watcher.py` line 151:
`EMAIL_{message id}.md`. -/
def taskFileName (id : String) : String := "EMAIL_" ++ id ++ ".md"

/-- `GmailWatcher.check_for_updates` (lines 98-123): list unread
important messages and keep those whose id is not in
`self.processed_ids`.  (API errors make the source return `[]`; the
message list parameter already stands for the successful reply.) -/
def check_for_updates (ledger : List String) (messages : List GmailEvent) :
    List GmailEvent :=
  messages.filter (fun m => decide (m.id ∉ ledger))

/-- `GmailWatcher.create_action_file` (lines 125-195): fetch the full
message, write `Needs_Action/EMAIL_{id}.md`, then add the id to
`processed_ids` and rewrite the persisted ledger.  On
`fetchOk = false` the function raises before the file write, leaving
every component of the state unchanged; the returned trace lists the
filesystem events that actually happened, in order. -/
def create_action_file (s : WatcherState) (e : GmailEvent) :
    WatcherState × List WEvent :=
  if e.fetchOk then
    ({ memLedger :=
         if e.id ∈ s.memLedger then s.memLedger else s.memLedger ++ [e.id],
       diskLedger :=
         if e.id ∈ s.memLedger then s.memLedger else s.memLedger ++ [e.id],
       files :=
         if taskFileName e.id ∈ s.files then s.files
         else s.files ++ [taskFileName e.id],
       creations := s.creations ++ [e.id] },
     [WEvent.writeFile e.id, WEvent.markSeen e.id, WEvent.persistLedger])
  else (s, [])

/-- One iteration of `BaseWatcher.run` (lines 59-76): call
`check_for_updates` once, then process each returned item with
`create_action_file`, catching and logging per-item failures. -/
def pollCycle (s : WatcherState) (messages : List GmailEvent) : WatcherState :=
  (check_for_updates s.memLedger messages).foldl
    (fun st m => (create_action_file st m).1) s

/-- Operations observable across the lifetime of the ledger: poll
cycles, and process restarts (which reload `processed_ids` from the
persisted ledger via `_load_processed`). -/
inductive WatcherOp where
  | poll (messages : List GmailEvent)
  | restart
  deriving Repr

/-- Step a watcher state by one operation. -/
def watcherStep (s : WatcherState) : WatcherOp → WatcherState
  | WatcherOp.poll messages => pollCycle s messages
  | WatcherOp.restart => { s with memLedger := s.diskLedger }

/-- Run a sequence of operations. -/
def runWatcher (s : WatcherState) (ops : List WatcherOp) : WatcherState :=
  ops.foldl watcherStep s

/-- Initial state: empty ledger, empty `Needs_Action/`. -/
def initWatcher : WatcherState := ⟨[], [], [], []⟩

/-- Invariant carried through every operation: the creation log has no
duplicate ids, every created id is in the in-memory ledger, and the
persisted ledger equals the in-memory one (because `_save_processed`
runs immediately after every `processed_ids.add`). -/
def WatcherInv (s : WatcherState) : Prop :=
  s.creations.Nodup ∧ (∀ id ∈ s.creations, id ∈ s.memLedger) ∧
    s.diskLedger = s.memLedger

theorem create_action_file_memLedger_mono (s : WatcherState) (e : GmailEvent)
    (x : String) (hx : x ∈ s.memLedger) :
    x ∈ (create_action_file s e).1.memLedger := by
  unfold create_action_file
  by_cases hok : e.fetchOk
  · simp only [hok, if_pos]
    by_cases hmem : e.id ∈ s.memLedger <;> simp [hmem, hx]
  · simp [hok, hx]

theorem foldl_create_memLedger_mono (l : List GmailEvent) (s : WatcherState)
    (x : String) (hx : x ∈ s.memLedger) :
    x ∈ (l.foldl (fun st m => (create_action_file st m).1) s).memLedger := by
  induction l generalizing s with
  | nil => exact hx
  | cons m rest ih =>
      exact ih _ (create_action_file_memLedger_mono s m x hx)

theorem foldl_create_inv (l : List GmailEvent) (s : WatcherState)
    (hinv : WatcherInv s)
    (hnd : (l.map GmailEvent.id).Nodup)
    (hfresh : ∀ m ∈ l, m.id ∉ s.memLedger) :
    WatcherInv (l.foldl (fun st m => (create_action_file st m).1) s) := by
  induction l generalizing s with
  | nil => exact hinv
  | cons m rest ih =>
      obtain ⟨hnodup, hsub, hdisk⟩ := hinv
      have hmid : m.id ∉ s.memLedger := hfresh m (List.mem_cons_self m rest)
      have hndrest : (rest.map GmailEvent.id).Nodup := (List.nodup_cons.mp hnd).2
      have hmnotin : m.id ∉ rest.map GmailEvent.id := (List.nodup_cons.mp hnd).1
      simp only [List.foldl_cons]
      by_cases hok : m.fetchOk
      · apply ih
        · refine ⟨?_, ?_, ?_⟩
          · simp only [create_action_file, hok, if_pos, if_neg hmid]
            refine List.Nodup.append hnodup (List.nodup_singleton _) ?_
            intro a ha hb
            simp only [List.mem_singleton] at hb
            exact hmid (hb ▸ hsub a ha)
          · intro id hid
            simp only [create_action_file, hok, if_pos, if_neg hmid] at hid ⊢
            rcases List.mem_append.mp hid with h1 | h2
            · exact List.mem_append.mpr (Or.inl (hsub id h1))
            · simp only [List.mem_singleton] at h2
              subst h2
              exact List.mem_append.mpr (Or.inr (List.mem_singleton.mpr rfl))
          · simp [create_action_file, hok, if_neg hmid]
        · exact hndrest
        · intro m' hm'
          simp only [create_action_file, hok, if_pos, if_neg hmid]
          intro hmem
          rcases List.mem_append.mp hmem with h1 | h2
          · exact hfresh m' (List.mem_cons_of_mem m hm') h1
          · simp only [List.mem_singleton] at h2
            exact hmnotin (h2 ▸ List.mem_map_of_mem GmailEvent.id hm')
      · have : create_action_file s m = (s, []) := by
          simp [create_action_file, hok]
        rw [this]
        exact ih s ⟨hnodup, hsub, hdisk⟩ hndrest
          (fun m' hm' => hfresh m' (List.mem_cons_of_mem m hm'))

theorem pollCycle_inv (s : WatcherState) (messages : List GmailEvent)
    (hinv : WatcherInv s) (hnd : (messages.map GmailEvent.id).Nodup) :
    WatcherInv (pollCycle s messages) := by
  unfold pollCycle
  apply foldl_create_inv _ _ hinv
  · exact List.Nodup.sublist
      ((List.filter_sublist messages).map GmailEvent.id) hnd
  · intro m hm
    have := List.of_mem_filter hm
    simpa using this

theorem runWatcher_inv (ops : List WatcherOp) (s : WatcherState)
    (hinv : WatcherInv s)
    (hnd : ∀ messages, WatcherOp.poll messages ∈ ops →
      (messages.map GmailEvent.id).Nodup) :
    WatcherInv (runWatcher s ops) := by
  induction ops generalizing s with
  | nil => exact hinv
  | cons op rest ih =>
      simp only [runWatcher, List.foldl_cons]
      apply ih
      · cases op with
        | poll messages =>
            exact pollCycle_inv s messages hinv
              (hnd messages (List.mem_cons_self _ _))
        | restart =>
            obtain ⟨h1, h2, h3⟩ := hinv
            refine ⟨h1, ?_, rfl⟩
            intro id hid
            show id ∈ s.diskLedger
            rw [h3]
            exact h2 id hid
      · intro messages hm
        exact hnd messages (List.mem_cons_of_mem _ hm)

theorem foldl_create_processes_all (l : List GmailEvent) (s : WatcherState)
    (hok : ∀ m ∈ l, m.fetchOk = true) (m : GmailEvent) (hm : m ∈ l) :
    m.id ∈ (l.foldl (fun st m => (create_action_file st m).1) s).memLedger := by
  induction l generalizing s with
  | nil => cases hm
  | cons a rest ih =>
      simp only [List.foldl_cons]
      rcases List.mem_cons.mp hm with h | h
      · subst h
        apply foldl_create_memLedger_mono
        simp only [create_action_file, hok m (List.mem_cons_self m rest), if_pos]
        by_cases hmem : m.id ∈ s.memLedger <;> simp [hmem]
      · exact ih _ (fun x hx => hok x (List.mem_cons_of_mem a hx)) h

theorem pollCycle_absorbs (s : WatcherState) (messages : List GmailEvent)
    (hok : ∀ m ∈ messages, m.fetchOk = true) (m : GmailEvent)
    (hm : m ∈ messages) :
    m.id ∈ (pollCycle s messages).memLedger := by
  unfold pollCycle
  by_cases hmem : m.id ∈ s.memLedger
  · exact foldl_create_memLedger_mono _ _ _ hmem
  · apply foldl_create_processes_all
    · intro x hx
      exact hok x (List.mem_filter.mp hx).1
    · exact List.mem_filter.mpr ⟨hm, by simpa using hmem⟩

/-- C1: across any sequence of poll cycles and process restarts (with
the ledger persisted between them), the Gmail watcher creates at most
one task file per unique message id.  First conjunct: the creation log
of any run from the initial state has no duplicate ids (poll replies
are assumed to list each message id once, as the Gmail API does).
Second conjunct: an id already in the ledger is filtered out by
`check_for_updates`.  Third conjunct: a second poll cycle returning
the same event list as a completed first one changes nothing — zero
new task files. -/
theorem gmail_idempotent_ingestion (ops : List WatcherOp)
    (hnd : ∀ messages, WatcherOp.poll messages ∈ ops →
      (messages.map GmailEvent.id).Nodup) :
    (runWatcher initWatcher ops).creations.Nodup ∧
      (∀ (ledger : List String) (messages : List GmailEvent) (m : GmailEvent),
        m ∈ messages → m.id ∈ ledger → m ∉ check_for_updates ledger messages) ∧
      (∀ (s : WatcherState) (messages : List GmailEvent),
        (∀ m ∈ messages, m.fetchOk = true) →
        pollCycle (pollCycle s messages) messages = pollCycle s messages) := by
  refine ⟨?_, ?_, ?_⟩
  · exact (runWatcher_inv ops initWatcher
      ⟨List.nodup_nil, fun id hid => absurd hid (List.not_mem_nil id), rfl⟩ hnd).1
  · intro ledger messages m _ hmem hfilter
    have := List.of_mem_filter hfilter
    simp only [decide_eq_true_eq] at this
    exact this hmem
  · intro s messages hok
    set t := pollCycle s messages with ht
    have hempty : check_for_updates t.memLedger messages = [] := by
      unfold check_for_updates
      rw [List.filter_eq_nil_iff]
      intro m hm
      rw [ht]
      simpa using pollCycle_absorbs s messages hok m hm
    show pollCycle t messages = t
    unfold pollCycle
    rw [hempty]
    rfl

theorem gmail_idempotent_ingestion_witness :
    (runWatcher initWatcher
        [WatcherOp.poll [⟨"E1", true⟩], WatcherOp.restart,
         WatcherOp.poll [⟨"E1", true⟩]]).creations.Nodup :=
  (gmail_idempotent_ingestion
    [WatcherOp.poll [⟨"E1", true⟩], WatcherOp.restart,
     WatcherOp.poll [⟨"E1", true⟩]]
    (by intro messages hm
        simp only [List.mem_cons, List.not_mem_nil, or_false] at hm
        rcases hm with h | h | h
        · injection h with h2; subst h2; decide
        · exact WatcherOp.noConfusion h
        · injection h with h2; subst h2; decide)).1

/-- C5: the id of an event is marked in the ledger and persisted only
after the task file has been written — in the successful trace the
`markSeen` and `persistLedger` events follow the `writeFile` event —
and when `create_action_file` raises before the file write, the state
is fully unchanged, so an id not yet in the ledger stays out of it and
the same event is returned again by `check_for_updates` on the next
cycle. -/
theorem create_action_file_mark_after_write (s : WatcherState) (e : GmailEvent) :
    (e.fetchOk = true →
      (create_action_file s e).2 =
          [WEvent.writeFile e.id, WEvent.markSeen e.id, WEvent.persistLedger] ∧
        (∀ pre suf, (create_action_file s e).2 =
            pre ++ WEvent.markSeen e.id :: suf → WEvent.writeFile e.id ∈ pre) ∧
        (∀ pre suf, (create_action_file s e).2 =
            pre ++ WEvent.persistLedger :: suf → WEvent.writeFile e.id ∈ pre)) ∧
    (e.fetchOk = false →
      (create_action_file s e).1 = s ∧
        (e.id ∉ s.memLedger →
          ∀ messages, e ∈ messages →
            e ∈ check_for_updates (create_action_file s e).1.memLedger messages)) := by
  constructor
  · intro hok
    have htr : (create_action_file s e).2 =
        [WEvent.writeFile e.id, WEvent.markSeen e.id, WEvent.persistLedger] := by
      simp [create_action_file, hok]
    refine ⟨htr, ?_, ?_⟩ <;>
    · intro pre suf heq
      rw [htr] at heq
      rcases pre with _ | ⟨e1, pre⟩
      · simp at heq
      · have h1 : WEvent.writeFile e.id = e1 := by
          have h2 := congrArg List.head? heq
          simpa using h2
        rw [← h1]
        exact List.mem_cons_self _ _
  · intro hfail
    have hst : (create_action_file s e).1 = s := by
      simp [create_action_file, hfail]
    refine ⟨hst, fun hnot messages hmem => ?_⟩
    rw [hst]
    exact List.mem_filter.mpr ⟨hmem, by simpa using hnot⟩

theorem create_action_file_mark_after_write_witness :
    (create_action_file initWatcher ⟨"E1", true⟩).2 =
        [WEvent.writeFile "E1", WEvent.markSeen "E1", WEvent.persistLedger] ∧
      (create_action_file initWatcher ⟨"E2", false⟩).1 = initWatcher :=
  ⟨((create_action_file_mark_after_write initWatcher ⟨"E1", true⟩).1 rfl).1,
   ((create_action_file_mark_after_write initWatcher ⟨"E2", false⟩).2 rfl).1⟩

/-! ## Autonomous task loop (`Ralph/ralph_loop.py`)

`check_completion` (lines 120-153) and the bounded loop `ralph_loop`
(lines 181-238).  The external actor (the CLI invocation) is an oracle
mapping the iteration number to its output text and exit code; the
directory contents observed by `snapshot_dir` inside
`check_completion` during iteration `i` are a second oracle. -/

/-- Python substring containment (`pat in s`) over character lists. -/
def hasSubstr (pat : Str) : Str → Bool
  | [] => pat.isEmpty
  | x :: xs => pat.isPrefixOf (x :: xs) || hasSubstr pat xs

/-- Module constant `COMPLETION_MARKER = "TASK_COMPLETE"` (line 37). -/
def COMPLETION_MARKER : String := "TASK_COMPLETE"

/-- `check_completion` (lines 120-153): returns `(is_complete, reason)`.
Strategy 1 fires when the marker occurs in the actor output; strategy 2
when new files appeared in `Done/` and `Needs_Action/` is now empty;
strategy 3 when `Needs_Action/` was non-empty at loop start and is now
empty.  The `done_now`/`needs_now` arguments stand for the directory
listings the function takes itself via `snapshot_dir` at call time. -/
def check_completion (output : String)
    (done_before needs_before done_now needs_now : List String) :
    Bool × String :=
  if hasSubstr (strOf COMPLETION_MARKER) (strOf output) then
    (true, "Claude signalled TASK_COMPLETE")
  else if (done_now.filter (fun f => decide (f ∉ done_before))).isEmpty = false ∧
      needs_now.isEmpty then
    (true,
      toString (done_now.filter (fun f => decide (f ∉ done_before))).length ++
        " file(s) moved to Done/ — Needs_Action/ is empty")
  else if needs_before.isEmpty = false ∧ needs_now.isEmpty then
    (true, "Needs_Action/ is now empty")
  else (false, "")

/-- Result of a `ralph_loop` run: the returned boolean, the number of
iterations actually executed, the completion reason (empty when none),
and a ghost log recording, for each executed completion check, the
`(done_before, needs_before)` baseline pair it was given. -/
structure RalphResult where
  success : Bool
  iterations : Nat
  reason : String
  baselines : List (List String × List String)
  deriving DecidableEq, Repr

/-- The `for iteration in range(1, max_iterations + 1)` body of
`ralph_loop` (lines 205-230): invoke the actor, abort on a negative
exit code, otherwise run `check_completion` against the `done_before`
and `needs_before` snapshots — which the source computes once, before
the loop (lines 195-196), and never refreshes. -/
def ralphGo (actor : Nat → String × Int)
    (dirAfter : Nat → List String × List String)
    (db nb : List String) :
    Nat → Nat → List (List String × List String) → RalphResult
  | _, 0, log => ⟨false, 0, "", log⟩
  | i, fuel + 1, log =>
      if (actor i).2 < 0 then ⟨false, i, "", log⟩
      else if (check_completion (actor i).1 db nb
          (dirAfter i).1 (dirAfter i).2).1 then
        ⟨true, i,
          (check_completion (actor i).1 db nb (dirAfter i).1 (dirAfter i).2).2,
          log ++ [(db, nb)]⟩
      else
        match ralphGo actor dirAfter db nb (i + 1) fuel (log ++ [(db, nb)]) with
        | ⟨s, 0, r, lg⟩ => ⟨s, i, r, lg⟩
        | res => res

/-- `ralph_loop` (lines 181-238): snapshot `Done/` and `Needs_Action/`
once before the loop, then iterate up to `max_iterations` times.
On fuel exhaustion the `iterations` field reports the number of
iterations executed. -/
def ralph_loop (actor : Nat → String × Int)
    (dirAfter : Nat → List String × List String)
    (d0 n0 : List String) (maxIter : Nat) : RalphResult :=
  ralphGo actor dirAfter d0 n0 1 maxIter []

/-- Modelled from the spec: the claim asserts that the baseline
snapshots used by iteration `i` are taken at the start of that same
iteration, so iteration `i` compares against the directory state
observed just before actor invocation `i` (the state after invocation
`i - 1`, or the initial state for `i = 1`).  This variant implements
that reading for comparison with `ralph_loop`. -/
def ralphGoPerIteration (actor : Nat → String × Int)
    (dirAfter : Nat → List String × List String)
    (d0 n0 : List String) :
    Nat → Nat → List (List String × List String) → RalphResult
  | _, 0, log => ⟨false, 0, "", log⟩
  | i, fuel + 1, log =>
      if (actor i).2 < 0 then ⟨false, i, "", log⟩
      else if (check_completion (actor i).1
          (if i = 1 then (d0, n0) else dirAfter (i - 1)).1
          (if i = 1 then (d0, n0) else dirAfter (i - 1)).2
          (dirAfter i).1 (dirAfter i).2).1 then
        ⟨true, i,
          (check_completion (actor i).1
            (if i = 1 then (d0, n0) else dirAfter (i - 1)).1
            (if i = 1 then (d0, n0) else dirAfter (i - 1)).2
            (dirAfter i).1 (dirAfter i).2).2,
          log ++ [if i = 1 then (d0, n0) else dirAfter (i - 1)]⟩
      else
        match ralphGoPerIteration actor dirAfter d0 n0 (i + 1) fuel
            (log ++ [if i = 1 then (d0, n0) else dirAfter (i - 1)]) with
        | ⟨s, 0, r, lg⟩ => ⟨s, i, r, lg⟩
        | res => res

/-- Modelled from the spec: `ralph_loop` as the claim describes it,
with per-iteration baseline snapshots. -/
def ralph_loop_perIteration (actor : Nat → String × Int)
    (dirAfter : Nat → List String × List String)
    (d0 n0 : List String) (maxIter : Nat) : RalphResult :=
  ralphGoPerIteration actor dirAfter d0 n0 1 maxIter []

/-- Actor of the C7 counterexample: never prints the completion
marker, always exits 0. -/
def c7Actor : Nat → String × Int := fun _ => ("working", 0)

/-- Directory oracle of the C7 counterexample: during iteration 1 the
actor creates the file `x` in `Needs_Action/`; during iteration 2 it
removes it again.  `Done/` never changes. -/
def c7Dirs : Nat → List String × List String :=
  fun i => if i = 1 then ([], ["x"]) else ([], [])

/-- Modelled from the spec: completion rule 1 — the actor output
contains the explicit completion token. -/
def rule1Matches (output : String) : Prop :=
  hasSubstr (strOf COMPLETION_MARKER) (strOf output) = true

/-- Modelled from the spec: completion rule 2 — new files appeared in
`Done/` while `Needs_Action/` is now empty. -/
def rule2Matches (done_before done_now needs_now : List String) : Prop :=
  (∃ f ∈ done_now, f ∉ done_before) ∧ needs_now = []

/-- Modelled from the spec: completion rule 3 — `Needs_Action/` was
non-empty at loop start and is now empty. -/
def rule3Matches (needs_before needs_now : List String) : Prop :=
  needs_before ≠ [] ∧ needs_now = []

theorem check_completion_marker (output : String)
    (db nb dn nn : List String)
    (h : hasSubstr (strOf COMPLETION_MARKER) (strOf output) = true) :
    check_completion output db nb dn nn =
      (true, "Claude signalled TASK_COMPLETE") := by
  unfold check_completion
  rw [if_pos h]

theorem rule2_cond_iff (db dn nn : List String) :
    ((dn.filter (fun f => decide (f ∉ db))).isEmpty = false ∧ nn.isEmpty) ↔
      rule2Matches db dn nn := by
  unfold rule2Matches
  constructor
  · rintro ⟨h1, h2⟩
    refine ⟨?_, List.isEmpty_iff.mp h2⟩
    have hne : dn.filter (fun f => decide (f ∉ db)) ≠ [] := by
      intro hnil
      rw [hnil] at h1
      simp at h1
    rcases List.exists_mem_of_ne_nil _ hne with ⟨f, hf⟩
    have hmf := List.mem_filter.mp hf
    exact ⟨f, hmf.1, by simpa using hmf.2⟩
  · rintro ⟨⟨f, hf1, hf2⟩, h2⟩
    refine ⟨?_, by simp [h2]⟩
    have hmem : f ∈ dn.filter (fun f => decide (f ∉ db)) :=
      List.mem_filter.mpr ⟨hf1, by simpa using hf2⟩
    cases hfe : (dn.filter (fun f => decide (f ∉ db))).isEmpty with
    | false => rfl
    | true =>
        rw [List.isEmpty_iff.mp hfe] at hmem
        cases hmem

theorem rule3_cond_iff (nb nn : List String) :
    (nb.isEmpty = false ∧ nn.isEmpty) ↔ rule3Matches nb nn := by
  unfold rule3Matches
  constructor
  · rintro ⟨h1, h2⟩
    refine ⟨?_, List.isEmpty_iff.mp h2⟩
    intro hnil
    rw [hnil] at h1
    simp at h1
  · rintro ⟨h1, h2⟩
    refine ⟨?_, by simp [h2]⟩
    cases hfe : nb.isEmpty with
    | false => rfl
    | true => exact absurd (List.isEmpty_iff.mp hfe) h1

/-- C6: `check_completion` evaluates the three completion rules in
fixed priority order and reports the first match.  Conjuncts: (a) the
completion marker in the output yields completion attributed to rule 1
regardless of all directory arguments; (b) the boolean result is true
exactly when some rule, as described by the specification, matches;
(c) without rule 1, a rule-2 match yields the rule-2 reason;
(d) without rules 1 and 2, a rule-3 match yields the rule-3 reason;
(e) an actor whose first output contains the marker (and whose exit
code is non-negative) makes `ralph_loop` report completion with the
rule-1 reason after exactly one iteration. -/
theorem check_completion_priority :
    (∀ (output : String) (db nb dn nn : List String), rule1Matches output →
      check_completion output db nb dn nn =
        (true, "Claude signalled TASK_COMPLETE")) ∧
    (∀ (output : String) (db nb dn nn : List String),
      (check_completion output db nb dn nn).1 = true ↔
        (rule1Matches output ∨ rule2Matches db dn nn ∨ rule3Matches nb nn)) ∧
    (∀ (output : String) (db nb dn nn : List String),
      ¬ rule1Matches output → rule2Matches db dn nn →
      check_completion output db nb dn nn =
        (true, toString (dn.filter (fun f => decide (f ∉ db))).length ++
          " file(s) moved to Done/ — Needs_Action/ is empty")) ∧
    (∀ (output : String) (db nb dn nn : List String),
      ¬ rule1Matches output → ¬ rule2Matches db dn nn → rule3Matches nb nn →
      check_completion output db nb dn nn = (true, "Needs_Action/ is now empty")) ∧
    (∀ (actor : Nat → String × Int)
        (dirAfter : Nat → List String × List String)
        (d0 n0 : List String) (maxIter : Nat),
      1 ≤ maxIter → rule1Matches (actor 1).1 → ¬ (actor 1).2 < 0 →
      ralph_loop actor dirAfter d0 n0 maxIter =
        ⟨true, 1, "Claude signalled TASK_COMPLETE", [(d0, n0)]⟩) := by
  have hr1 : ∀ (output : String) (db nb dn nn : List String),
      rule1Matches output →
      check_completion output db nb dn nn =
        (true, "Claude signalled TASK_COMPLETE") := by
    intro output db nb dn nn h
    exact check_completion_marker output db nb dn nn h
  refine ⟨hr1, ?_, ?_, ?_, ?_⟩
  · intro output db nb dn nn
    unfold check_completion
    by_cases h1 : hasSubstr (strOf COMPLETION_MARKER) (strOf output) = true
    · rw [if_pos h1]
      have : rule1Matches output := h1
      simp [this]
    · rw [if_neg h1]
      by_cases h2 :
          (dn.filter (fun f => decide (f ∉ db))).isEmpty = false ∧
            nn.isEmpty = true
      · rw [if_pos h2]
        simp only [true_iff]
        exact Or.inr (Or.inl ((rule2_cond_iff db dn nn).mp h2))
      · rw [if_neg h2]
        by_cases h3 : nb.isEmpty = false ∧ nn.isEmpty = true
        · rw [if_pos h3]
          simp only [true_iff]
          exact Or.inr (Or.inr ((rule3_cond_iff nb nn).mp h3))
        · rw [if_neg h3]
          constructor
          · intro hx
            simp at hx
          · rintro (h | h | h)
            · exact absurd h h1
            · exact absurd ((rule2_cond_iff db dn nn).mpr h) h2
            · exact absurd ((rule3_cond_iff nb nn).mpr h) h3
  · intro output db nb dn nn hn1 h2
    unfold check_completion
    rw [if_neg (show ¬ hasSubstr (strOf COMPLETION_MARKER) (strOf output) = true
        from hn1),
      if_pos ((rule2_cond_iff db dn nn).mpr h2)]
  · intro output db nb dn nn hn1 hn2 h3
    unfold check_completion
    rw [if_neg (show ¬ hasSubstr (strOf COMPLETION_MARKER) (strOf output) = true
        from hn1),
      if_neg (fun hc => hn2 ((rule2_cond_iff db dn nn).mp hc)),
      if_pos ((rule3_cond_iff nb nn).mpr h3)]
  · intro actor dirAfter d0 n0 maxIter hiter h1 hcode
    obtain ⟨fuel, rfl⟩ : ∃ fuel, maxIter = fuel + 1 :=
      ⟨maxIter - 1, (Nat.succ_pred_eq_of_pos hiter).symm⟩
    unfold ralph_loop ralphGo
    rw [if_neg hcode,
      check_completion_marker (actor 1).1 d0 n0 (dirAfter 1).1 (dirAfter 1).2 h1]
    rfl

theorem check_completion_priority_witness :
    check_completion "all done TASK_COMPLETE" ["old"] [] ["old"] ["left"] =
        (true, "Claude signalled TASK_COMPLETE") ∧
      ralph_loop (fun _ => ("TASK_COMPLETE", 0)) (fun _ => ([], [])) [] [] 5 =
        ⟨true, 1, "Claude signalled TASK_COMPLETE", [([], [])]⟩ :=
  ⟨check_completion_priority.1 "all done TASK_COMPLETE" ["old"] [] ["old"] ["left"]
      (by unfold rule1Matches strOf; decide),
   check_completion_priority.2.2.2.2 (fun _ => ("TASK_COMPLETE", 0))
      (fun _ => ([], [])) [] [] 5 (by norm_num)
      (by unfold rule1Matches strOf; decide) (by decide)⟩

/-- C7 counterexample: with an empty initial `Needs_Action/`, an actor
that creates a file during iteration 1 and removes it during iteration
2 (never printing the marker, always exiting 0), and a budget of 2
iterations, the real loop reports failure — its iteration-2 completion
check still compares against the loop-start snapshots — while the
claimed per-iteration-baseline behaviour would report completion at
iteration 2 via rule 3. -/
theorem ralph_baseline_counterexample :
    (ralph_loop c7Actor c7Dirs [] [] 2).success = false ∧
      (ralph_loop_perIteration c7Actor c7Dirs [] [] 2).success = true := by
  constructor <;> decide

theorem ralphGo_baselines (a : Nat → String × Int)
    (d : Nat → List String × List String) (db nb : List String) :
    ∀ (fuel i : Nat) (log : List (List String × List String))
      (p : List String × List String),
      p ∈ (ralphGo a d db nb i fuel log).baselines → p ∈ log ∨ p = (db, nb) := by
  intro fuel
  induction fuel with
  | zero => intro i log p hp; exact Or.inl hp
  | succ fuel ih =>
      intro i log p hp
      unfold ralphGo at hp
      by_cases hc : (a i).2 < 0
      · rw [if_pos hc] at hp
        exact Or.inl hp
      · rw [if_neg hc] at hp
        by_cases hcc : (check_completion (a i).1 db nb (d i).1 (d i).2).1 = true
        · rw [if_pos hcc] at hp
          simp only at hp
          rcases List.mem_append.mp hp with h | h
          · exact Or.inl h
          · simp only [List.mem_singleton] at h
            exact Or.inr h
        · rw [if_neg hcc] at hp
          rcases hres : ralphGo a d db nb (i + 1) fuel (log ++ [(db, nb)]) with
            ⟨s, iter, r, lg⟩
          rw [hres] at hp
          have hlg : p ∈ lg := by
            cases iter <;> simpa using hp
          have := ih (i + 1) (log ++ [(db, nb)]) p (by rw [hres]; exact hlg)
          rcases this with h | h
          · rcases List.mem_append.mp h with h2 | h2
            · exact Or.inl h2
            · simp only [List.mem_singleton] at h2
              exact Or.inr h2
          · exact Or.inr h

/-- C7 (amended): the `Done/` and `Needs_Action/` baseline snapshots
are taken once, before the loop starts; every iteration's completion
check receives those loop-start snapshots, so completion detection in
iteration `i` compares against the state at loop start, not against
the state immediately before actor invocation `i`. -/
theorem ralph_baselines_loop_start (actor : Nat → String × Int)
    (dirAfter : Nat → List String × List String)
    (d0 n0 : List String) (maxIter : Nat)
    (p : List String × List String)
    (hp : p ∈ (ralph_loop actor dirAfter d0 n0 maxIter).baselines) :
    p = (d0, n0) := by
  rcases ralphGo_baselines actor dirAfter d0 n0 maxIter 1 [] p hp with h | h
  · cases h
  · exact h

theorem ralph_baselines_loop_start_witness :
    (([], []) : List String × List String) ∈
        (ralph_loop c7Actor c7Dirs [] [] 2).baselines ∧
      (([], []) : List String × List String) = ([], []) :=
  ⟨by decide,
   ralph_baselines_loop_start c7Actor c7Dirs [] [] 2 ([], []) (by decide)⟩

/-! ## Spec-file front matter (`parse_spec`, `social_orchestrator.py` lines 73-121)

The front-matter reader works at character level, so this section
models strings as `List Char`.  `parse_spec` first checks that the
text starts with `---`, then performs Python `text.split("---", 2)`,
then feeds the middle part to `yaml.safe_load`.  The YAML loader is
modelled for the slice of YAML the repository writes: a flat mapping
of single-line `key: value` entries whose values are either plain
scalars or double-quoted scalars with backslash escapes; multi-line
scalars and other YAML constructs are reported as parse errors.
PyYAML's up-front printable-character check is modelled exactly
(`yamlPrintable`); the extra YAML 1.1 line-break characters, whose
folding the slice does not implement, are rejected conservatively
(`yamlBreak11`), and every theorem below stays inside the exactly
modelled character set. -/

/-- Locate the first occurrence of `sep`: returns the text before it
and the text after it.  This is the engine of Python `str.split` with
a bounded split count. -/
def splitFirst (sep : Str) : Str → Option (Str × Str)
  | [] => none
  | x :: xs =>
      if sep.isPrefixOf (x :: xs) then some ([], (x :: xs).drop sep.length)
      else
        match splitFirst sep xs with
        | none => none
        | some (p, q) => some (x :: p, q)

/-- Python `text.split(sep, 2)`: at most two splits, up to three parts. -/
def pySplit3 (sep : Str) (text : Str) : List Str :=
  match splitFirst sep text with
  | none => [text]
  | some (a, rest) =>
      match splitFirst sep rest with
      | none => [a, rest]
      | some (b, rest2) => [a, b, rest2]

/-- The characters Python `str.strip()` removes: the Unicode
whitespace set of CPython (`Py_UNICODE_ISSPACE`), which besides the
ASCII whitespace contains `\x1c`-`\x1f`, NEL `\x85`, NBSP `\xa0`, and
the Unicode space and line/paragraph separators. -/
def pyIsSpace (c : Char) : Bool :=
  decide ((0x09 ≤ c.toNat ∧ c.toNat ≤ 0x0d) ∨
    (0x1c ≤ c.toNat ∧ c.toNat ≤ 0x1f) ∨ c.toNat = 0x20 ∨ c.toNat = 0x85 ∨
    c.toNat = 0xa0 ∨ c.toNat = 0x1680 ∨
    (0x2000 ≤ c.toNat ∧ c.toNat ≤ 0x200a) ∨ c.toNat = 0x2028 ∨
    c.toNat = 0x2029 ∨ c.toNat = 0x202f ∨ c.toNat = 0x205f ∨
    c.toNat = 0x3000)

/-- Python `str.strip()`: remove Unicode whitespace from both ends. -/
def pyStrip (s : Str) : Str :=
  ((s.dropWhile pyIsSpace).reverse.dropWhile pyIsSpace).reverse

/-- YAML scalar-boundary trimming: the scanner excludes only spaces
and tabs around plain scalars and keys, not the wider Python
whitespace set. -/
def yamlStrip (s : Str) : Str :=
  ((s.dropWhile (fun c => c == ' ' || c == '\t')).reverse.dropWhile
    (fun c => c == ' ' || c == '\t')).reverse

/-- Split a text into parts separated by a character (used for lines). -/
def splitOnChar (c : Char) : Str → List Str
  | [] => [[]]
  | x :: xs =>
      if x = c then [] :: splitOnChar c xs
      else
        match splitOnChar c xs with
        | [] => [[x]]
        | h :: t => (x :: h) :: t

/-- Escape decoding inside a YAML double-quoted scalar (the escapes the
repository could ever produce; anything else is a parse error, as in
PyYAML). -/
def yamlEscape : Char → Option Char
  | '\\' => some '\\'
  | '"' => some '"'
  | 'n' => some '\n'
  | 't' => some '\t'
  | 'r' => some '\r'
  | '0' => some (Char.ofNat 0)
  | _ => none

/-- Parse the remainder of a double-quoted scalar after the opening
quote.  Returns the decoded content and the text after the closing
quote; an unterminated scalar or an unsupported escape is an error
(PyYAML raises a `ScannerError` in those situations, which
`parse_spec` converts to `ValueError`). -/
def parseQuotedBody : Str → Except String (Str × Str)
  | [] => Except.error "unterminated double-quoted scalar"
  | x :: rest =>
      if x = '"' then Except.ok ([], rest)
      else if x = '\\' then
        match rest with
        | [] => Except.error "unterminated escape"
        | e :: rest2 =>
            match yamlEscape e with
            | none => Except.error "unknown escape character"
            | some c =>
                match parseQuotedBody rest2 with
                | Except.error msg => Except.error msg
                | Except.ok (v, r) => Except.ok (c :: v, r)
      else
        match parseQuotedBody rest with
        | Except.error msg => Except.error msg
        | Except.ok (v, r) => Except.ok (x :: v, r)

/-- Parse the value part of a `key: value` line: leading spaces are
skipped; a double-quoted scalar keeps its content verbatim (modulo
escapes) and tolerates only trailing spaces after the closing quote;
a plain scalar is trimmed of boundary spaces and tabs. -/
def parseValue (v : Str) : Except String Str :=
  match v.dropWhile (fun c => c == ' ') with
  | '"' :: rest =>
      match parseQuotedBody rest with
      | Except.error msg => Except.error msg
      | Except.ok (content, after) =>
          if after.all (fun c => c == ' ') then Except.ok content
          else Except.error "content after the closing quote"
  | other => Except.ok (yamlStrip other)

/-- Parse one mapping line: blank lines are skipped, anything without
a colon is an error, otherwise split at the first colon into a
space/tab-trimmed key and a parsed value. -/
def parseLine (l : Str) : Except String (Option (Str × Str)) :=
  if l.all Char.isWhitespace then Except.ok none
  else
    match splitFirst [':'] l with
    | none => Except.error "expected a mapping line"
    | some (k, rest) =>
        match parseValue rest with
        | Except.error msg => Except.error msg
        | Except.ok v => Except.ok (some (yamlStrip k, v))

/-- Accumulate the mapping entries of all lines. -/
def yamlLoadLines : List Str → Except String (List (Str × Str))
  | [] => Except.ok []
  | l :: ls =>
      match parseLine l with
      | Except.error msg => Except.error msg
      | Except.ok none => yamlLoadLines ls
      | Except.ok (some kv) =>
          match yamlLoadLines ls with
          | Except.error msg => Except.error msg
          | Except.ok rest => Except.ok (kv :: rest)

/-- PyYAML's `Reader.check_printable` character set: the reader
rejects a stream containing any character outside this set with a
`ReaderError` ("special characters are not allowed") before any
scanning happens. -/
def yamlPrintable (c : Char) : Bool :=
  decide (c.toNat = 0x09 ∨ c.toNat = 0x0a ∨ c.toNat = 0x0d ∨
    (0x20 ≤ c.toNat ∧ c.toNat ≤ 0x7e) ∨ c.toNat = 0x85 ∨
    (0xa0 ≤ c.toNat ∧ c.toNat ≤ 0xd7ff) ∨
    (0xe000 ≤ c.toNat ∧ c.toNat ≤ 0xfffd) ∨
    (0x10000 ≤ c.toNat ∧ c.toNat ≤ 0x10ffff))

/-- YAML 1.1 line-break characters other than `\n`: PyYAML's scanner
treats `\r`, NEL `\x85` and the Unicode line/paragraph separators as
line breaks (folding them inside flow scalars).  The single-line
slice modelled here does not implement that folding, so these
characters are outside the modelled slice. -/
def yamlBreak11 (c : Char) : Bool :=
  decide (c.toNat = 0x0d ∨ c.toNat = 0x85 ∨ c.toNat = 0x2028 ∨
    c.toNat = 0x2029)

/-- A character the modelled YAML slice handles exactly: printable per
`Reader.check_printable` and not one of the extra YAML 1.1 line
breaks. -/
def yamlChar (c : Char) : Bool :=
  yamlPrintable c && !(yamlBreak11 c)

/-- `yaml.safe_load` modelled for the flat single-line mappings the
repository writes.  A stream with a non-printable character is an
error exactly as in PyYAML (`ReaderError`); a stream containing one
of the extra YAML 1.1 line-break characters is reported as an error
too — conservatively, since the folding PyYAML applies to them is
outside the modelled slice (no theorem below feeds the loader such a
stream, so no proved statement relies on this conservative branch
matching PyYAML). -/
def yamlLoad (s : Str) : Except String (List (Str × Str)) :=
  if s.all yamlChar then yamlLoadLines (splitOnChar '\n' s)
  else Except.error "special characters are not allowed"

/-- Python `dict.get(key, default)` over the loaded mapping; later
duplicate keys override earlier ones, hence the lookup from the right. -/
def metaGetD (meta : List (Str × Str)) (key : Str) (dflt : Str) : Str :=
  match meta.reverse.lookup key with
  | some v => v
  | none => dflt

/-- Normalised result dictionary of `parse_spec`. -/
structure PostSpec where
  platform : Str
  caption : Str
  image_path : Str
  image_url : Str
  link_url : Str
  deriving DecidableEq, Repr

/-- The platform whitelist of `parse_spec` (line 108). -/
def VALID_PLATFORMS : List Str :=
  [strOf "linkedin", strOf "facebook", strOf "instagram", strOf "twitter"]

/-- Python `str.lower()`. -/
def toLowerStr (s : Str) : Str := s.map Char.toLower

/-- Validation tail of `parse_spec` (lines 105-121): reject an empty
or unknown platform and an empty caption, then build the normalised
dictionary. -/
def parseSpecFields (meta : List (Str × Str)) (platform caption : Str) :
    Except String PostSpec :=
  if platform = [] then Except.error "Missing platform in front-matter"
  else if platform ∉ VALID_PLATFORMS then Except.error "Unknown platform"
  else if caption = [] then
    Except.error "Missing caption (or text) in front-matter"
  else
    Except.ok
      { platform := platform, caption := caption,
        image_path := pyStrip (metaGetD meta (strOf "image_path") []),
        image_url := pyStrip (metaGetD meta (strOf "image_url") []),
        link_url := pyStrip (metaGetD meta (strOf "link_url") []) }

/-- Type dispatch of `parse_spec` (lines 93-103): `twitter_post` is
normalised to platform `twitter` with the `text` field preferred;
`social_post` reads `platform` (lower-cased, stripped) and prefers the
`caption` field; any other type is rejected. -/
def parseSpecMeta (meta : List (Str × Str)) : Except String PostSpec :=
  if pyStrip (metaGetD meta (strOf "type") []) = strOf "twitter_post" then
    parseSpecFields meta (strOf "twitter")
      (pyStrip (metaGetD meta (strOf "text") (metaGetD meta (strOf "caption") [])))
  else if pyStrip (metaGetD meta (strOf "type") []) = strOf "social_post" then
    parseSpecFields meta
      (pyStrip (toLowerStr (metaGetD meta (strOf "platform") [])))
      (pyStrip (metaGetD meta (strOf "caption") (metaGetD meta (strOf "text") [])))
  else Except.error "Not a social post file"

/-- `parse_spec` (lines 73-121): front-matter check, Python
`split("---", 2)`, YAML load of the middle part, then normalisation
and validation.  All raised `ValueError`s are `Except.error`. -/
def parse_spec (text : Str) : Except String PostSpec :=
  if (strOf "---").isPrefixOf text = false then
    Except.error "No YAML front-matter (file must start with ---)"
  else
    match pySplit3 (strOf "---") text with
    | [_, yamlPart, _] =>
        match yamlLoad yamlPart with
        | Except.error msg => Except.error ("YAML parse error: " ++ msg)
        | Except.ok meta => parseSpecMeta meta
    | _ =>
        Except.error "Malformed YAML front-matter (need opening and closing ---)"

/-- Fixed front-matter prefix a writer produces before the caption
value: the file format documented in the module docstring of
`social_orchestrator.py` (lines 16-22), with the value quoting
convention used throughout the repository (`create_action_file`,
`gmail_watcher.py` lines 153-163: values are wrapped in double quotes
with no escaping of the content). -/
def fmHead : Str := strOf "\ntype: social_post\nplatform: twitter\ncaption: \""

/-- Fixed text following the caption value: closing quote, closing
delimiter, body. -/
def fmTail : Str := strOf "\"\n---\n\n# Post\n"

/-- Write a Twitter social-post task file with the given caption, in
the repository's front-matter convention. -/
def writeSocialPost (caption : Str) : Str :=
  strOf "---" ++ fmHead ++ caption ++ fmTail

theorem splitFirst_cons (sep : Str) (x : Char) (xs : Str) :
    splitFirst sep (x :: xs) =
      if sep.isPrefixOf (x :: xs) then some ([], (x :: xs).drop sep.length)
      else
        match splitFirst sep xs with
        | none => none
        | some (p, q) => some (x :: p, q) := rfl

theorem splitFirst_none_of_not_substr (sep : Str) :
    ∀ l, hasSubstr sep l = false → splitFirst sep l = none := by
  intro l
  induction l with
  | nil => intro _; rfl
  | cons x xs ih =>
      intro h
      unfold hasSubstr at h
      rw [Bool.or_eq_false_iff] at h
      rw [splitFirst_cons, if_neg (by rw [h.1]; exact Bool.false_ne_true),
        ih h.2]

/-- Location of the task file after `process_file`. -/
inductive FileLoc where
  | original
  | done
  deriving DecidableEq, Repr

/-- Filesystem operations the pipeline can attempt on the task file. -/
inductive FsOp where
  | rename
  | delete
  deriving DecidableEq, Repr

/-- Result of `process_file`: returned boolean, attempted filesystem
operations on the task file (in order), final location of the file. -/
structure ProcResult where
  success : Bool
  ops : List FsOp
  loc : FileLoc
  deriving DecidableEq, Repr

/-- `HANDLERS` dispatch (lines 600-605 and 617): the Twitter handler
carries the in-source 280-character validation; the other platform
handlers are pure browser-automation oracles. -/
def HANDLERS_dispatch (browser : Str → Nat → Bool) (spec : PostSpec) :
    Nat → Bool :=
  if spec.platform = strOf "twitter" then
    post_twitter_attempt spec.caption (browser spec.platform)
  else browser spec.platform

/-- `process_file` (lines 671-698): a `ValueError` (or any other
exception) from `parse_spec` is caught, logged and returns `False`
with the file untouched; otherwise `execute_post` runs and, when it
returns `True` and dry-run is off, the file is renamed into `Done/`
(a failing rename is logged but the function still returns `True`,
with the file left in place). -/
def process_file (text : Str) (sessions : Str → Bool)
    (dryRun renameOk : Bool) (browser : Str → Nat → Bool) : ProcResult :=
  match parse_spec text with
  | Except.error _ => ⟨false, [], FileLoc.original⟩
  | Except.ok spec =>
      if (execute_post (sessions spec.platform) dryRun
          (HANDLERS_dispatch browser spec)).success = true ∧ dryRun = false
      then
        ⟨true, [FsOp.rename],
          if renameOk = true then FileLoc.done else FileLoc.original⟩
      else
        ⟨(execute_post (sessions spec.platform) dryRun
            (HANDLERS_dispatch browser spec)).success, [], FileLoc.original⟩

/-- C4: the pipeline renames the task file into `Done/` exactly when
the post succeeded and dry-run is off; no code path deletes a task
file; on a parse failure the pipeline returns the untouched-failure
result; and the file is always either in `Done/` or still in its
original location.  (`renameOk` models the environment outcome of the
attempted rename: when the rename raises, the file stays in place and
the error is only logged.) -/
theorem process_file_done_iff (text : Str) (sessions : Str → Bool)
    (dryRun renameOk : Bool) (browser : Str → Nat → Bool) :
    (FsOp.delete ∉ (process_file text sessions dryRun renameOk browser).ops) ∧
    (FsOp.rename ∈ (process_file text sessions dryRun renameOk browser).ops ↔
      ((process_file text sessions dryRun renameOk browser).success = true ∧
        dryRun = false)) ∧
    (renameOk = true →
      ((process_file text sessions dryRun renameOk browser).loc =
          FileLoc.done ↔
        ((process_file text sessions dryRun renameOk browser).success = true ∧
          dryRun = false))) ∧
    ((parse_spec text).isOk = false →
      process_file text sessions dryRun renameOk browser =
        ⟨false, [], FileLoc.original⟩) ∧
    ((process_file text sessions dryRun renameOk browser).loc = FileLoc.done ∨
      (process_file text sessions dryRun renameOk browser).loc =
        FileLoc.original) := by
  cases hp : parse_spec text with
  | error msg =>
      have hr : process_file text sessions dryRun renameOk browser =
          ⟨false, [], FileLoc.original⟩ := by
        unfold process_file
        rw [hp]
      rw [hr]
      refine ⟨by simp, by simp, by intro _; simp, fun _ => rfl, Or.inr rfl⟩
  | ok spec =>
      by_cases hcond : (execute_post (sessions spec.platform) dryRun
          (HANDLERS_dispatch browser spec)).success = true ∧ dryRun = false
      · have hr : process_file text sessions dryRun renameOk browser =
            ⟨true, [FsOp.rename],
              if renameOk = true then FileLoc.done else FileLoc.original⟩ := by
          unfold process_file
          rw [hp]
          exact if_pos hcond
        rw [hr]
        refine ⟨by simp, by simp [hcond.2], ?_, ?_, ?_⟩
        · intro hro
          rw [if_pos hro]
          simp [hcond.2]
        · intro habs
          simp [Except.isOk, Except.toBool] at habs
        · by_cases hro : renameOk = true
          · rw [if_pos hro]; exact Or.inl rfl
          · rw [if_neg hro]; exact Or.inr rfl
      · have hr : process_file text sessions dryRun renameOk browser =
            ⟨(execute_post (sessions spec.platform) dryRun
                (HANDLERS_dispatch browser spec)).success, [],
              FileLoc.original⟩ := by
          unfold process_file
          rw [hp]
          exact if_neg hcond
        rw [hr]
        refine ⟨by simp, by simpa using fun h1 h2 => hcond ⟨h1, h2⟩, ?_, ?_, Or.inr rfl⟩
        · intro _
          simp only [FileLoc]
          constructor
          · intro habs
            cases habs
          · intro h
            exact absurd h hcond
        · intro habs
          simp [Except.isOk, Except.toBool] at habs

theorem process_file_done_iff_witness :
    (process_file (writeSocialPost (strOf "hi")) (fun _ => true) false true
        (fun _ _ => true)).loc = FileLoc.done ↔
      ((process_file (writeSocialPost (strOf "hi")) (fun _ => true) false true
          (fun _ _ => true)).success = true ∧ false = false) :=
  (process_file_done_iff (writeSocialPost (strOf "hi")) (fun _ => true)
    false true (fun _ _ => true)).2.2.1 rfl

/-! ## Watchdog handler (`ApprovedHandler`, `social_orchestrator.py` lines 703-741)

`on_created` deduplicates watchdog events through the instance set
`_seen`, keyed by `os.path.normcase` of the event path (Windows
semantics: lower-case, forward slashes folded to backslashes, matching
the "Deduplicate Windows double-fire events" comment in the source).
The set is added to before any further check and is never cleared
while the process lives. -/

/-- `os.path.normcase` with Windows semantics. -/
def normcase (p : Str) : Str :=
  p.map (fun ch => if ch = '/' then '\\' else ch.toLower)

/-- `pathlib.Path(p).name`: the component after the last separator. -/
def pathBaseName (p : Str) : Str :=
  (p.reverse.takeWhile (fun ch => !(ch == '/') && !(ch == '\\'))).reverse

/-- `pathlib.Path(p).suffix`: the final extension including the dot,
empty when the name has no interior dot. -/
def pathSuffix (n : Str) : Str :=
  match splitFirst ['.'] n.reverse with
  | none => []
  | some (revExt, revStem) =>
      if revStem = [] then []
      else if revExt = [] then []
      else '.' :: revExt.reverse

/-- One watchdog `on_created` event. -/
structure FsEvent where
  isDir : Bool
  srcPath : Str
  deriving DecidableEq, Repr

/-- `ApprovedHandler.on_created` (lines 710-741): directory events are
ignored; the normalised path is checked against `_seen` and added;
non-`.md`, hidden and temp files are skipped; the file must still
exist after the settle delay (`existsAfterWait`) and be readable
(`content`), and must contain one of the recognised post types; only
then is `process_file` dispatched.  Returns the new `_seen` set and
whether `process_file` was invoked. -/
def on_created (seen : List Str) (e : FsEvent) (existsAfterWait : Bool)
    (content : Option Str) : List Str × Bool :=
  if e.isDir then (seen, false)
  else if normcase e.srcPath ∈ seen then (seen, false)
  else if toLowerStr (pathSuffix (pathBaseName e.srcPath)) ≠ strOf ".md" ∨
      (pathBaseName e.srcPath).head? = some '.' ∨
      (pathBaseName e.srcPath).head? = some '~' then
    (seen ++ [normcase e.srcPath], false)
  else if existsAfterWait = false then (seen ++ [normcase e.srcPath], false)
  else
    match content with
    | none => (seen ++ [normcase e.srcPath], false)
    | some text =>
        if hasSubstr (strOf "type: social_post") text = false ∧
            hasSubstr (strOf "type: twitter_post") text = false then
          (seen ++ [normcase e.srcPath], false)
        else (seen ++ [normcase e.srcPath], true)

/-- Fold a sequence of watchdog events through the handler, collecting
the normalised path of every event that was dispatched to
`process_file`. -/
def handlerRun (seen : List Str) :
    List (FsEvent × Bool × Option Str) → List Str × List Str
  | [] => (seen, [])
  | (e, ex, ct) :: rest =>
      ((handlerRun (on_created seen e ex ct).1 rest).1,
       (if (on_created seen e ex ct).2 then [normcase e.srcPath] else []) ++
         (handlerRun (on_created seen e ex ct).1 rest).2)

theorem on_created_ignored (seen : List Str) (e : FsEvent) (ex : Bool)
    (ct : Option Str) (hmem : normcase e.srcPath ∈ seen) :
    on_created seen e ex ct = (seen, false) := by
  unfold on_created
  by_cases hd : e.isDir = true
  · rw [if_pos hd]
  · rw [if_neg hd, if_pos hmem]

theorem on_created_fst (seen : List Str) (e : FsEvent) (ex : Bool)
    (ct : Option Str) :
    (on_created seen e ex ct).1 = seen ∨
      (on_created seen e ex ct).1 = seen ++ [normcase e.srcPath] := by
  rcases ct with _ | text
  · unfold on_created
    split_ifs <;> simp
  · unfold on_created
    split_ifs <;> try simp
    all_goals
      by_cases hc : hasSubstr (strOf "type: social_post") text = false ∧
          hasSubstr (strOf "type: twitter_post") text = false
    all_goals simp [hc]

theorem on_created_key_mem (seen : List Str) (e : FsEvent) (ex : Bool)
    (ct : Option Str) (k : Str) (hk : k ∈ seen) :
    k ∈ (on_created seen e ex ct).1 := by
  rcases on_created_fst seen e ex ct with h | h <;> rw [h]
  · exact hk
  · exact List.mem_append.mpr (Or.inl hk)

theorem on_created_processed (seen : List Str) (e : FsEvent) (ex : Bool)
    (ct : Option Str) (hp : (on_created seen e ex ct).2 = true) :
    normcase e.srcPath ∉ seen ∧
      normcase e.srcPath ∈ (on_created seen e ex ct).1 := by
  constructor
  · intro hmem
    rw [on_created_ignored seen e ex ct hmem] at hp
    exact absurd hp (by simp)
  · unfold on_created at hp ⊢
    by_cases hd : e.isDir = true
    · rw [if_pos hd] at hp
      exact absurd hp (by simp)
    · rw [if_neg hd] at hp ⊢
      by_cases hmem : normcase e.srcPath ∈ seen
      · rw [if_pos hmem] at hp
        exact absurd hp (by simp)
      · rw [if_neg hmem] at hp ⊢
        by_cases hsuf : toLowerStr (pathSuffix (pathBaseName e.srcPath)) ≠
            strOf ".md" ∨
            (pathBaseName e.srcPath).head? = some '.' ∨
            (pathBaseName e.srcPath).head? = some '~'
        · rw [if_pos hsuf] at hp
          exact absurd hp (by simp)
        · rw [if_neg hsuf] at hp ⊢
          by_cases hex : ex = false
          · rw [if_pos hex] at hp
            exact absurd hp (by simp)
          · rw [if_neg hex] at hp ⊢
            rcases ct with _ | text
            · exact absurd hp (by simp)
            · by_cases hc : hasSubstr (strOf "type: social_post") text =
                  false ∧
                  hasSubstr (strOf "type: twitter_post") text = false
              · rw [show (match some text with
                  | none => (seen ++ [normcase e.srcPath], false)
                  | some text =>
                      if hasSubstr (strOf "type: social_post") text = false ∧
                          hasSubstr (strOf "type: twitter_post") text = false
                      then (seen ++ [normcase e.srcPath], false)
                      else (seen ++ [normcase e.srcPath], true)) =
                  (if hasSubstr (strOf "type: social_post") text = false ∧
                      hasSubstr (strOf "type: twitter_post") text = false
                    then (seen ++ [normcase e.srcPath], false)
                    else (seen ++ [normcase e.srcPath], true)) from rfl,
                  if_pos hc] at hp
                exact absurd hp (by simp)
              · rw [show (match some text with
                  | none => (seen ++ [normcase e.srcPath], false)
                  | some text =>
                      if hasSubstr (strOf "type: social_post") text = false ∧
                          hasSubstr (strOf "type: twitter_post") text = false
                      then (seen ++ [normcase e.srcPath], false)
                      else (seen ++ [normcase e.srcPath], true)) =
                  (if hasSubstr (strOf "type: social_post") text = false ∧
                      hasSubstr (strOf "type: twitter_post") text = false
                    then (seen ++ [normcase e.srcPath], false)
                    else (seen ++ [normcase e.srcPath], true)) from rfl,
                  if_neg hc]
                exact List.mem_append.mpr
                  (Or.inr (List.mem_singleton.mpr rfl))

theorem handlerRun_cons (seen : List Str) (e : FsEvent) (ex : Bool)
    (ct : Option Str) (rest : List (FsEvent × Bool × Option Str)) :
    handlerRun seen ((e, ex, ct) :: rest) =
      ((handlerRun (on_created seen e ex ct).1 rest).1,
       (if (on_created seen e ex ct).2 then [normcase e.srcPath] else []) ++
         (handlerRun (on_created seen e ex ct).1 rest).2) := rfl

theorem handlerRun_fresh_nodup :
    ∀ (evts : List (FsEvent × Bool × Option Str)) (seen : List Str),
      (handlerRun seen evts).2.Nodup ∧
        ∀ k ∈ (handlerRun seen evts).2, k ∉ seen := by
  intro evts
  induction evts with
  | nil => intro seen; exact ⟨List.nodup_nil, by simp [handlerRun]⟩
  | cons evt rest ih =>
      intro seen
      obtain ⟨e, ex, ct⟩ := evt
      obtain ⟨ihn, ihf⟩ := ih (on_created seen e ex ct).1
      by_cases hp : (on_created seen e ex ct).2 = true
      · obtain ⟨hnot, hmemkey⟩ := on_created_processed seen e ex ct hp
        have hres : (handlerRun seen ((e, ex, ct) :: rest)).2 =
            normcase e.srcPath ::
              (handlerRun (on_created seen e ex ct).1 rest).2 := by
          rw [handlerRun_cons, if_pos hp]
          rfl
        rw [hres]
        constructor
        · rw [List.nodup_cons]
          exact ⟨fun hmem => ihf _ hmem hmemkey, ihn⟩
        · intro k hk
          rcases List.mem_cons.mp hk with h | h
          · subst h; exact hnot
          · intro hks
            exact ihf k h (on_created_key_mem seen e ex ct k hks)
      · have hres : (handlerRun seen ((e, ex, ct) :: rest)).2 =
            (handlerRun (on_created seen e ex ct).1 rest).2 := by
          rw [handlerRun_cons, if_neg hp]
          rfl
        rw [hres]
        refine ⟨ihn, fun k hk hks => ?_⟩
        exact ihf k hk (on_created_key_mem seen e ex ct k hks)

/-- C10: the orchestrator's watch-mode handler dispatches each
normalised path to `process_file` at most once per process lifetime.
First conjunct: over any event sequence starting from an empty `_seen`
set, the dispatched normalised paths contain no duplicates.  Second
conjunct: an event whose normalised path is already in `_seen` is
silently ignored — no dispatch, no state change — even though the
file at that path may have been freshly re-created; nothing ever
removes entries from `_seen`.  Third conjunct: `_seen` only grows
(no event removes a recorded key), so the ignoring persists until the
process restarts. -/
theorem approved_handler_once_per_path :
    (∀ evts : List (FsEvent × Bool × Option Str),
      (handlerRun [] evts).2.Nodup) ∧
    (∀ (seen : List Str) (e : FsEvent) (ex : Bool) (ct : Option Str),
      normcase e.srcPath ∈ seen → on_created seen e ex ct = (seen, false)) ∧
    (∀ (seen : List Str) (e : FsEvent) (ex : Bool) (ct : Option Str)
        (k : Str), k ∈ seen → k ∈ (on_created seen e ex ct).1) :=
  ⟨fun evts => (handlerRun_fresh_nodup evts []).1,
   on_created_ignored, on_created_key_mem⟩

theorem approved_handler_once_per_path_witness :
    on_created [normcase (strOf "D:/Approved/POST_a.md")]
        ⟨false, strOf "D:/Approved/POST_a.md"⟩ true
        (some (strOf "type: social_post")) =
      ([normcase (strOf "D:/Approved/POST_a.md")], false) :=
  approved_handler_once_per_path.2.1
    [normcase (strOf "D:/Approved/POST_a.md")]
    ⟨false, strOf "D:/Approved/POST_a.md"⟩ true
    (some (strOf "type: social_post"))
    (List.mem_singleton.mpr rfl)

/-!
## Email MCP server (`mcp_servers/email_server.py`)

`_sanitize` maps each of the characters `< > : " / \ | ? *` to `_` and
truncates to 60 characters.  `draft_email` creates a Gmail draft and
writes an approval-request file into `Pending_Approval/`; it never
sends.  `send_email` is the approval gate: an empty `approved_file`
argument redirects to `draft_email`; a named file that is not present
in `Approved/` returns a blocked status and changes nothing; only a
file present in `Approved/` lets the send happen, after which the
approval file is renamed into `Done/` with a date prefixed name.

The Gmail service is external: we record the drafts created and the
messages sent as ghost logs in the state.  Directories are lists of
file names (`Str`).
-/

def sanitizeChar (c : Char) : Char :=
  if c = '<' ∨ c = '>' ∨ c = ':' ∨ c = '"' ∨ c = '/' ∨ c = '\\' ∨
      c = '|' ∨ c = '?' ∨ c = '*' then '_' else c

def sanitize (name : Str) : Str :=
  (name.map sanitizeChar).take 60

structure EmailState where
  pending  : List Str
  approved : List Str
  done     : List Str
  drafts   : List (String × Str × String)
  sent     : List (String × Str × String)
deriving Repr, DecidableEq

inductive SendStatus where
  | draft_created
  | blocked
  | sent
deriving Repr, DecidableEq

def draft_email (st : EmailState) (rcpt : String) (subject : Str)
    (body : String) (timestamp : Str) : EmailState × SendStatus :=
  let fname := strOf "EMAIL_DRAFT_" ++ sanitize subject ++ strOf "_" ++
    timestamp ++ strOf ".md"
  ({ st with
      pending := st.pending ++ [fname],
      drafts := st.drafts ++ [(rcpt, subject, body)] },
   SendStatus.draft_created)

def send_email (st : EmailState) (rcpt : String) (subject : Str)
    (body : String) (approved_file : Str) (timestamp dayTag : Str) :
    EmailState × SendStatus :=
  if approved_file = [] then
    draft_email st rcpt subject body timestamp
  else if approved_file ∉ st.approved then
    (st, SendStatus.blocked)
  else
    ({ st with
        approved := st.approved.erase approved_file,
        done := st.done ++ [dayTag ++ strOf "_" ++ approved_file],
        sent := st.sent ++ [(rcpt, subject, body)] },
     SendStatus.sent)

theorem send_email_empty (st : EmailState) (rcpt : String) (subject : Str)
    (body : String) (ts dayTag : Str) :
    send_email st rcpt subject body [] ts dayTag =
      draft_email st rcpt subject body ts := by
  unfold send_email
  rw [if_pos rfl]

theorem send_email_missing (st : EmailState) (rcpt : String) (subject : Str)
    (body : String) (f ts dayTag : Str) (hne : f ≠ [])
    (hmiss : f ∉ st.approved) :
    send_email st rcpt subject body f ts dayTag = (st, SendStatus.blocked) := by
  unfold send_email
  rw [if_neg hne, if_pos hmiss]

theorem send_email_approved (st : EmailState) (rcpt : String) (subject : Str)
    (body : String) (f ts dayTag : Str) (hne : f ≠ [])
    (hmem : f ∈ st.approved) :
    send_email st rcpt subject body f ts dayTag =
      ({ st with
          approved := st.approved.erase f,
          done := st.done ++ [dayTag ++ strOf "_" ++ f],
          sent := st.sent ++ [(rcpt, subject, body)] },
       SendStatus.sent) := by
  unfold send_email
  rw [if_neg hne, if_neg (show ¬ f ∉ st.approved from fun h => h hmem)]

/-- C8: `send_email` cannot send without an existing approval file.
With an empty `approved_file` argument the call returns exactly the
result of `draft_email` (a Draft outcome, not an error) and the sent
log is unchanged.  With a named approval file absent from `Approved/`
it returns a blocked status and the state is completely unchanged.
Only when the named file is present in `Approved/` is the message
appended to the sent log, and then the approval file is removed from
`Approved/` and renamed into `Done/` with a date-prefixed name.
Consequently any call that changes the sent log had a nonempty
`approved_file` argument naming a file present in `Approved/`. -/
theorem send_email_requires_approval :
    (∀ (st : EmailState) (rcpt : String) (subject : Str) (body : String)
        (ts dayTag : Str),
      send_email st rcpt subject body [] ts dayTag =
        draft_email st rcpt subject body ts ∧
      (send_email st rcpt subject body [] ts dayTag).1.sent = st.sent) ∧
    (∀ (st : EmailState) (rcpt : String) (subject : Str) (body : String)
        (f ts dayTag : Str), f ≠ [] → f ∉ st.approved →
      send_email st rcpt subject body f ts dayTag = (st, SendStatus.blocked)) ∧
    (∀ (st : EmailState) (rcpt : String) (subject : Str) (body : String)
        (f ts dayTag : Str), f ≠ [] → f ∈ st.approved →
      (send_email st rcpt subject body f ts dayTag).2 = SendStatus.sent ∧
      (send_email st rcpt subject body f ts dayTag).1.sent =
        st.sent ++ [(rcpt, subject, body)] ∧
      (send_email st rcpt subject body f ts dayTag).1.approved =
        st.approved.erase f ∧
      (send_email st rcpt subject body f ts dayTag).1.done =
        st.done ++ [dayTag ++ strOf "_" ++ f]) ∧
    (∀ (st : EmailState) (rcpt : String) (subject : Str) (body : String)
        (f ts dayTag : Str),
      (send_email st rcpt subject body f ts dayTag).1.sent ≠ st.sent →
      f ≠ [] ∧ f ∈ st.approved) := by
  refine ⟨fun st rcpt subject body ts dayTag => ?_,
    fun st rcpt subject body f ts dayTag hne hmiss =>
      send_email_missing st rcpt subject body f ts dayTag hne hmiss,
    fun st rcpt subject body f ts dayTag hne hmem => ?_,
    fun st rcpt subject body f ts dayTag hch => ?_⟩
  · refine ⟨send_email_empty st rcpt subject body ts dayTag, ?_⟩
    rw [send_email_empty st rcpt subject body ts dayTag]
    rfl
  · rw [send_email_approved st rcpt subject body f ts dayTag hne hmem]
    exact ⟨rfl, rfl, rfl, rfl⟩
  · by_cases hne : f = []
    · subst hne
      rw [send_email_empty st rcpt subject body ts dayTag] at hch
      exact absurd rfl hch
    · by_cases hmem : f ∈ st.approved
      · exact ⟨hne, hmem⟩
      · rw [send_email_missing st rcpt subject body f ts dayTag hne hmem] at hch
        exact absurd rfl hch

theorem send_email_requires_approval_witness :
    (strOf "EMAIL_DRAFT_Hi_t1.md" ≠ ([] : List Char) ∧
      strOf "EMAIL_DRAFT_Hi_t1.md" ∈ [strOf "EMAIL_DRAFT_Hi_t1.md"]) ∧
    (send_email ⟨[], [strOf "EMAIL_DRAFT_Hi_t1.md"], [], [], []⟩
        "bob@example.com" (strOf "Hi") "hello"
        (strOf "EMAIL_DRAFT_Hi_t1.md") (strOf "t2")
        (strOf "2025-01-01")).2 = SendStatus.sent ∧
    (send_email ⟨[], [strOf "EMAIL_DRAFT_Hi_t1.md"], [], [], []⟩
        "bob@example.com" (strOf "Hi") "hello"
        (strOf "EMAIL_DRAFT_Hi_t1.md") (strOf "t2")
        (strOf "2025-01-01")).1.sent =
      [] ++ [("bob@example.com", strOf "Hi", "hello")] :=
  ⟨⟨by decide, by decide⟩,
    (send_email_requires_approval.2.2.1
      ⟨[], [strOf "EMAIL_DRAFT_Hi_t1.md"], [], [], []⟩
      "bob@example.com" (strOf "Hi") "hello"
      (strOf "EMAIL_DRAFT_Hi_t1.md") (strOf "t2") (strOf "2025-01-01")
      (by decide) (by decide)).1,
    (send_email_requires_approval.2.2.1
      ⟨[], [strOf "EMAIL_DRAFT_Hi_t1.md"], [], [], []⟩
      "bob@example.com" (strOf "Hi") "hello"
      (strOf "EMAIL_DRAFT_Hi_t1.md") (strOf "t2") (strOf "2025-01-01")
      (by decide) (by decide)).2.1⟩
